import Mathlib

/-!
Shallow embedding of the Aladdin-Lamp candle-light controller
(`src/CandleLight.cpp`, `include/config.h`).

The two algorithmic cores are embedded here:

* the candle flicker animation (`DEV_CandleLight::loop`,
  `DEV_CandleLight::applyFlicker`, `DEV_CandleLight::calculateSmoothedBrightness`),
  with C/C++ `float`/`double` arithmetic modelled over `ℚ`, C integer
  truncating division/modulus modelled with `Int.tdiv`/`Int.tmod`, and the
  Arduino `random(lo, hi)` draws injected as explicit integer streams
  (`rndB`, `rndH`), one draw per LED index per tick;

* the power-button debounce state machine (`DEV_CandleLight::handlePowerButton`),
  with `millis()` modelled as a natural-number timestamp supplied with each raw
  sample, raw GPIO readings as `Bool` (`true` = HIGH = released, `false` = LOW =
  pressed), and the two side-effecting actions (the HomeKit power toggle and the
  WiFi-AP serial command) modelled as emitted semantic events.

The fixed 2 × 8 LED arrays are modelled as total functions `ℕ → ℕ → _`
(strip index, LED index); all claims quantify over the in-range indices
(strip < NUM_STRIPS, index < LED_LENGTH).
-/

namespace AladdinLamp

/-! ## Configuration constants (include/config.h) -/

def LED_LENGTH : ℕ := 8
def NUM_STRIPS : ℕ := 2

def FLICKER_SMOOTHING : ℚ := 3 / 4

def FLICKER_VARIATION_MIN : ℤ := -40
def FLICKER_VARIATION_MAX : ℤ := 20
def FLICKER_BRIGHTNESS_MIN : ℤ := 30
def FLICKER_BRIGHTNESS_MAX : ℤ := 120

def FLICKER_HUE_MIN : ℤ := -8
def FLICKER_HUE_MAX : ℤ := 15

def DEBOUNCE_DELAY : ℕ := 50
def LONG_PRESS_DURATION : ℕ := 3000

/-! ## Arduino / C primitives -/

/-- Arduino `constrain(amt, low, high)` for the float (here `ℚ`) instantiation:
`(amt)<(low) ? (low) : ((amt)>(high) ? (high) : (amt))`. -/
def constrainQ (amt low high : ℚ) : ℚ :=
  if amt < low then low else if high < amt then high else amt

/-- Arduino `constrain(amt, low, high)` for the integer instantiation. -/
def constrainI (amt low high : ℤ) : ℤ :=
  if amt < low then low else if high < amt then high else amt

/-- C cast from a floating value (here `ℚ`) to `int`: truncation toward zero. -/
def truncQ (q : ℚ) : ℤ := if 0 ≤ q then ⌊q⌋ else ⌈q⌉

/-- Arduino `map(x, in_min, in_max, out_min, out_max)`:
`(x - in_min) * (out_max - out_min) / (in_max - in_min) + out_min`,
with C truncating integer division. -/
def mapArduino (x inMin inMax outMin outMax : ℤ) : ℤ :=
  ((x - inMin) * (outMax - outMin)).tdiv (inMax - inMin) + outMin

/-- C conversion of an `int` value to `uint8_t`: reduction modulo 256. -/
def toUInt8 (x : ℤ) : ℕ := (x % 256).toNat

/-! ## Flicker data model -/

/-- FastLED `CHSV` color triple as produced by `applyFlicker`
(each channel a `uint8_t`). -/
structure CHSV where
  h : ℕ
  s : ℕ
  v : ℕ
deriving DecidableEq, Repr

/-- Content of one LED cell: either the cleared `CRGB::Black` written by
`fill_solid`, or a `CHSV` color written by `applyFlicker`. -/
inductive Color where
  | black : Color
  | chsv : CHSV → Color
deriving DecidableEq, Repr

/-- Value channel of an emitted LED cell; `CRGB::Black` carries value 0. -/
def valueChannel : Color → ℕ
  | Color.black => 0
  | Color.chsv c => c.v

/-- Mutable state of `DEV_CandleLight` relevant to one animation tick:
the persistent smoothing array `previousBrightness[NUM_STRIPS][LED_LENGTH]`
and the output LED array `leds[NUM_STRIPS][LED_LENGTH]`, both modelled as
total functions of (strip, index). -/
structure FlickerState where
  previousBrightness : ℕ → ℕ → ℚ
  leds : ℕ → ℕ → Color

/-- Single C array-element assignment `f[s0][i0] = v` on a two-dimensional
array modelled as a function. -/
def setEntry {α : Type} (f : ℕ → ℕ → α) (s0 i0 : ℕ) (v : α) : ℕ → ℕ → α :=
  fun s i => if s = s0 ∧ i = i0 then v else f s i

/-- Result of `fill_solid(leds[0], LED_LENGTH, CRGB::Black)` on both strips. -/
def allBlack : ℕ → ℕ → Color := fun _ _ => Color.black

/-- Constructor initialisation of the smoothing array
(`previousBrightness[strip][i] = (FLICKER_BRIGHTNESS_MIN + FLICKER_BRIGHTNESS_MAX) / 2.0`). -/
def initPreviousBrightness : ℕ → ℕ → ℚ :=
  fun _ _ => ((FLICKER_BRIGHTNESS_MIN : ℚ) + (FLICKER_BRIGHTNESS_MAX : ℚ)) / 2

/-! ## Flicker algorithm (DEV_CandleLight) -/

/-- Exponential moving average, `DEV_CandleLight::calculateSmoothedBrightness`:
`(FLICKER_SMOOTHING * previous) + ((1.0 - FLICKER_SMOOTHING) * target)`. -/
def calculateSmoothedBrightness (target previous : ℚ) : ℚ :=
  (FLICKER_SMOOTHING * previous) + ((1 - FLICKER_SMOOTHING) * target)

/-- Hue wrap from `applyFlicker`:
`flickerHue = ((flickerHue % 360) + 360) % 360` with C truncating `%`. -/
def wrapHue360 (flickerHue : ℤ) : ℤ :=
  ((flickerHue.tmod 360) + 360).tmod 360

/-- Body of one iteration of the fully-lit loop of
`DEV_CandleLight::applyFlicker` (lines 280-300): given the two random draws
`rB` (brightness variation) and `rH` (hue offset) and the stored
`previousBrightness[0][i]`, produce the new smoothed brightness and the
emitted `CHSV` color. -/
def fullLedStep (baseHue baseSat rB rH : ℤ) (prev0i : ℚ) : ℚ × CHSV :=
  let targetBrightness :=
    constrainQ (100 + (rB : ℚ)) (FLICKER_BRIGHTNESS_MIN : ℚ) (FLICKER_BRIGHTNESS_MAX : ℚ)
  let smoothedBrightness := calculateSmoothedBrightness targetBrightness prev0i
  let flickerHue := wrapHue360 (baseHue + rH)
  let finalHue := toUInt8 (mapArduino flickerHue 0 360 0 255)
  let finalBrightness :=
    toUInt8 (mapArduino (truncQ smoothedBrightness)
      FLICKER_BRIGHTNESS_MIN FLICKER_BRIGHTNESS_MAX 0 255)
  let finalSaturation := toUInt8 (mapArduino baseSat 0 100 0 255)
  (smoothedBrightness, ⟨finalHue, finalSaturation, finalBrightness⟩)

/-- Body of the fractional-LED branch of `DEV_CandleLight::applyFlicker`
(lines 308-336): identical pipeline, except the emitted value channel is
computed from `(int)(smoothedBrightness * fraction)` re-clamped to the
flicker range before scaling. -/
def fracLedStep (baseHue baseSat rB rH : ℤ) (fraction : ℚ) (prev0f : ℚ) : ℚ × CHSV :=
  let targetBrightness :=
    constrainQ (100 + (rB : ℚ)) (FLICKER_BRIGHTNESS_MIN : ℚ) (FLICKER_BRIGHTNESS_MAX : ℚ)
  let smoothedBrightness := calculateSmoothedBrightness targetBrightness prev0f
  let flickerHue := wrapHue360 (baseHue + rH)
  let finalHue := toUInt8 (mapArduino flickerHue 0 360 0 255)
  let scaledBrightness := truncQ (smoothedBrightness * fraction)
  let finalBrightness :=
    toUInt8 (mapArduino (constrainI scaledBrightness FLICKER_BRIGHTNESS_MIN FLICKER_BRIGHTNESS_MAX)
      FLICKER_BRIGHTNESS_MIN FLICKER_BRIGHTNESS_MAX 0 255)
  let finalSaturation := toUInt8 (mapArduino baseSat 0 100 0 255)
  (smoothedBrightness, ⟨finalHue, finalSaturation, finalBrightness⟩)

/-- Effect of iteration `i` of the fully-lit loop on the device state:
store the smoothed brightness into `previousBrightness[0][i]` and
`previousBrightness[1][i]`, and write the color to `leds[0][i]` and
`leds[1][i]`. The random draws for index `i` are `rndB i` and `rndH i`. -/
def flickerStepAt (baseHue baseSat : ℤ) (rndB rndH : ℕ → ℤ) (i : ℕ)
    (st : FlickerState) : FlickerState :=
  let r := fullLedStep baseHue baseSat (rndB i) (rndH i) (st.previousBrightness 0 i)
  { previousBrightness := setEntry (setEntry st.previousBrightness 0 i r.1) 1 i r.1
    leds := setEntry (setEntry st.leds 0 i (Color.chsv r.2)) 1 i (Color.chsv r.2) }

/-- The loop `for (int i = 0; i < fullLEDs; i++)` of `applyFlicker`,
iterating `flickerStepAt` for `i = 0, …, n-1` in increasing order. -/
def flickerLoop (baseHue baseSat : ℤ) (rndB rndH : ℕ → ℤ) :
    ℕ → FlickerState → FlickerState
  | 0, st => st
  | n + 1, st => flickerStepAt baseHue baseSat rndB rndH n
      (flickerLoop baseHue baseSat rndB rndH n st)

/-- Shallow embedding of `DEV_CandleLight::applyFlicker(fullLEDs, fraction,
baseHue, baseSat)`: the fully-lit loop followed by the fractional-LED branch
guarded by `fraction > 0.01 && fullLEDs < LED_LENGTH`. -/
def applyFlicker (fullLEDs : ℕ) (fraction : ℚ) (baseHue baseSat : ℤ)
    (rndB rndH : ℕ → ℤ) (st : FlickerState) : FlickerState :=
  let st1 := flickerLoop baseHue baseSat rndB rndH fullLEDs st
  if 1 / 100 < fraction ∧ fullLEDs < LED_LENGTH then
    let r := fracLedStep baseHue baseSat (rndB fullLEDs) (rndH fullLEDs) fraction
      (st1.previousBrightness 0 fullLEDs)
    { previousBrightness :=
        setEntry (setEntry st1.previousBrightness 0 fullLEDs r.1) 1 fullLEDs r.1
      leds :=
        setEntry (setEntry st1.leds 0 fullLEDs (Color.chsv r.2)) 1 fullLEDs (Color.chsv r.2) }
  else st1

/-- Value `brightnessPercent * LED_LENGTH / 100.0` computed in
`DEV_CandleLight::loop` (integer product, then floating division). -/
def numLEDsFloat (brightnessPercent : ℤ) : ℚ :=
  ((brightnessPercent * (LED_LENGTH : ℤ) : ℤ) : ℚ) / 100

/-- Unclamped `fullLEDs = floor(numLEDsFloat)` of `DEV_CandleLight::loop`. -/
def fullLEDsRaw (brightnessPercent : ℤ) : ℤ :=
  ⌊numLEDsFloat brightnessPercent⌋

/-- Value `fraction = numLEDsFloat - fullLEDs`, computed before the clamp. -/
def fractionOf (brightnessPercent : ℤ) : ℚ :=
  numLEDsFloat brightnessPercent - (fullLEDsRaw brightnessPercent : ℚ)

/-- Clamped LED count `constrain(fullLEDs, 0, LED_LENGTH)` of
`DEV_CandleLight::loop`. -/
def ledCount (brightnessPercent : ℤ) : ℤ :=
  constrainI (fullLEDsRaw brightnessPercent) 0 (LED_LENGTH : ℤ)

/-- One animation tick of `DEV_CandleLight::loop` past the rate limiter
(lines 130-163): power gate, LED-count computation, clear-to-black,
early exit, then `applyFlicker`. The `FastLED.show()` output is the final
`leds` array of the returned state. -/
def loopTick (power : Bool) (brightnessPercent hueVal satVal : ℤ)
    (rndB rndH : ℕ → ℤ) (st : FlickerState) : FlickerState :=
  if power = false then
    { st with leds := allBlack }
  else
    let fullLEDs := ledCount brightnessPercent
    let fraction := fractionOf brightnessPercent
    let st1 : FlickerState := { st with leds := allBlack }
    if fullLEDs = 0 ∧ fraction < 1 / 100 then st1
    else applyFlicker fullLEDs.toNat fraction hueVal satVal rndB rndH st1

/-! ## Power-button state machine (DEV_CandleLight::handlePowerButton) -/

/-- Button FSM states (`enum` in CandleLight.h): `BTN_IDLE`,
`BTN_DEBOUNCING_PRESS`, `BTN_PRESSED`, `BTN_LONG_PRESS_ACTIVE`,
`BTN_DEBOUNCING_SHORT_RELEASE`, `BTN_DEBOUNCING_LONG_RELEASE`. -/
inductive ButtonState where
  | idle : ButtonState
  | debouncingPress : ButtonState
  | pressed : ButtonState
  | longPressActive : ButtonState
  | debouncingShortRelease : ButtonState
  | debouncingLongRelease : ButtonState
deriving DecidableEq, Repr

/-- Semantic events emitted by the button handler: the short-press power toggle
(`power->setVal(!power->getVal())`) and the WiFi-AP long-press action
(`homeSpan.processSerialCommand("A")`). -/
inductive ButtonEvent where
  | shortPress : ButtonEvent
  | longPressActivated : ButtonEvent
deriving DecidableEq, Repr

/-- Button-related member state of `DEV_CandleLight`: current FSM state, the
debounce timer `buttonStateTimer`, the press-confirmation time
`buttonPressStartTime`, and the last raw reading (`true` = HIGH). -/
structure BtnCtx where
  buttonState : ButtonState
  buttonStateTimer : ℕ
  buttonPressStartTime : ℕ
  buttonLastReading : Bool
deriving DecidableEq, Repr

/-- Constructor initialisation of the button state (CandleLight.cpp lines
60-63): `BTN_IDLE`, timers 0, last reading `HIGH`. -/
def initBtnCtx : BtnCtx :=
  { buttonState := ButtonState.idle
    buttonStateTimer := 0
    buttonPressStartTime := 0
    buttonLastReading := true }

/-- Shallow embedding of `DEV_CandleLight::handlePowerButton` for one call:
given the raw reading (`true` = HIGH = released) and the current `millis()`
value, produce the updated member state and the emitted event, if any.
Timestamps are naturals and `now - timer` is natural subtraction, which
agrees with the `uint32_t` arithmetic of the source whenever `millis()` has
not wrapped around since the timer was recorded. -/
def handlePowerButton (currentReading : Bool) (now : ℕ) (c : BtnCtx) :
    BtnCtx × Option ButtonEvent :=
  let sr : BtnCtx × Option ButtonEvent :=
    match c.buttonState with
    | ButtonState.idle =>
        if c.buttonLastReading = true ∧ currentReading = false then
          ({ c with buttonState := ButtonState.debouncingPress, buttonStateTimer := now }, none)
        else (c, none)
    | ButtonState.debouncingPress =>
        if currentReading = true then
          ({ c with buttonState := ButtonState.idle }, none)
        else if DEBOUNCE_DELAY ≤ now - c.buttonStateTimer then
          ({ c with buttonState := ButtonState.pressed, buttonPressStartTime := now }, none)
        else (c, none)
    | ButtonState.pressed =>
        if currentReading = true then
          ({ c with buttonState := ButtonState.debouncingShortRelease, buttonStateTimer := now },
            none)
        else if LONG_PRESS_DURATION ≤ now - c.buttonPressStartTime then
          ({ c with buttonState := ButtonState.longPressActive },
            some ButtonEvent.longPressActivated)
        else (c, none)
    | ButtonState.longPressActive =>
        if currentReading = true then
          ({ c with buttonState := ButtonState.debouncingLongRelease, buttonStateTimer := now },
            none)
        else (c, none)
    | ButtonState.debouncingShortRelease =>
        if currentReading = false then
          ({ c with buttonState := ButtonState.pressed }, none)
        else if DEBOUNCE_DELAY ≤ now - c.buttonStateTimer then
          ({ c with buttonState := ButtonState.idle }, some ButtonEvent.shortPress)
        else (c, none)
    | ButtonState.debouncingLongRelease =>
        if currentReading = false then
          ({ c with buttonState := ButtonState.longPressActive }, none)
        else if DEBOUNCE_DELAY ≤ now - c.buttonStateTimer then
          ({ c with buttonState := ButtonState.idle }, none)
        else (c, none)
  ({ sr.1 with buttonLastReading := currentReading }, sr.2)

/-- Fold `handlePowerButton` over a list of raw samples `(reading, millis)`,
collecting the emitted events in order. -/
def runButton (c : BtnCtx) : List (Bool × ℕ) → BtnCtx × List ButtonEvent
  | [] => (c, [])
  | sample :: rest =>
      let r := handlePowerButton sample.1 sample.2 c
      let rr := runButton r.1 rest
      (rr.1, r.2.toList ++ rr.2)

/-- Number of transitions into `BTN_PRESSED` that occur while folding
`handlePowerButton` over a list of raw samples. -/
def pressedEntries (c : BtnCtx) : List (Bool × ℕ) → ℕ
  | [] => 0
  | sample :: rest =>
      let c1 := (handlePowerButton sample.1 sample.2 c).1
      (if c.buttonState ≠ ButtonState.pressed ∧ c1.buttonState = ButtonState.pressed
        then 1 else 0) + pressedEntries c1 rest

/-- All-LOW raw sample sequence at the given `millis()` timestamps
(button held down, active-low). -/
def lowSamples (ts : List ℕ) : List (Bool × ℕ) := ts.map (fun t => (false, t))

/-- All-HIGH raw sample sequence at the given `millis()` timestamps
(button released). -/
def highSamples (ts : List ℕ) : List (Bool × ℕ) := ts.map (fun t => (true, t))

/-! ## Helper lemmas: Arduino primitives -/

theorem constrainI_mono {a b lo hi : ℤ} (hlh : lo ≤ hi) (h : a ≤ b) :
    constrainI a lo hi ≤ constrainI b lo hi := by
  unfold constrainI
  split_ifs <;> omega

theorem constrainQ_mem (x : ℚ) {lo hi : ℚ} (h : lo ≤ hi) :
    lo ≤ constrainQ x lo hi ∧ constrainQ x lo hi ≤ hi := by
  unfold constrainQ
  split_ifs <;> constructor <;> linarith

theorem calculateSmoothedBrightness_mem {t p lo hi : ℚ}
    (ht1 : lo ≤ t) (ht2 : t ≤ hi) (hp1 : lo ≤ p) (hp2 : p ≤ hi) :
    lo ≤ calculateSmoothedBrightness t p ∧ calculateSmoothedBrightness t p ≤ hi := by
  unfold calculateSmoothedBrightness FLICKER_SMOOTHING
  constructor <;> linarith

theorem tmod_neg_left (a b : ℤ) : (-a).tmod b = -(a.tmod b) := by
  rw [Int.tmod_def, Int.tmod_def, Int.neg_tdiv]
  ring

theorem tmod_360_lb (x : ℤ) : -360 < x.tmod 360 := by
  rcases le_or_lt 0 x with hx | hx
  · have := Int.tmod_nonneg 360 hx
    omega
  · have hx' : 0 ≤ -x := by omega
    have h1 : (-x).tmod 360 < 360 := Int.tmod_lt_of_pos (-x) (by norm_num)
    have h2 : x.tmod 360 = -((-x).tmod 360) := by
      rw [← tmod_neg_left (-x) 360, neg_neg]
    omega

theorem wrapHue360_mem (x : ℤ) : 0 ≤ wrapHue360 x ∧ wrapHue360 x < 360 := by
  unfold wrapHue360
  have hlb : -360 < x.tmod 360 := tmod_360_lb x
  have hy : 0 ≤ x.tmod 360 + 360 := by omega
  rw [Int.tmod_eq_emod hy (by norm_num)]
  exact ⟨Int.emod_nonneg _ (by norm_num), Int.emod_lt_of_pos _ (by norm_num)⟩

/-! ## Claim C3: LED-count mapping is monotone with the expected anchor values -/

theorem numLEDsFloat_mono {p q : ℤ} (h : p ≤ q) : numLEDsFloat p ≤ numLEDsFloat q := by
  unfold numLEDsFloat LED_LENGTH
  have hpq : (p : ℚ) ≤ (q : ℚ) := by exact_mod_cast h
  push_cast
  linarith

theorem ledCount_mono {p q : ℤ} (h : p ≤ q) : ledCount p ≤ ledCount q :=
  constrainI_mono (by norm_num [LED_LENGTH]) (Int.floor_le_floor (numLEDsFloat_mono h))

/-- Claim C3: for every integer brightness percentage `p` in `0..99` with
`N = LED_LENGTH = 8`, the clamped full-LED count of `DEV_CandleLight::loop`
satisfies `ledCount p ≤ ledCount (p+1)`; and `ledCount 0 = 0`,
`ledCount 50 = N/2 = 4`, `ledCount 100 = N = 8`. -/
theorem claim_C3 (p : ℤ) (h0 : 0 ≤ p) (h99 : p ≤ 99) :
    ledCount p ≤ ledCount (p + 1) ∧
      ledCount 0 = 0 ∧ ledCount 50 = (LED_LENGTH : ℤ) / 2 ∧
      ledCount 100 = (LED_LENGTH : ℤ) := by
  refine ⟨ledCount_mono (by omega), ?_, ?_, ?_⟩ <;>
    norm_num [ledCount, fullLEDsRaw, numLEDsFloat, LED_LENGTH, constrainI]

theorem claim_C3_witness :
    ledCount 50 ≤ ledCount 51 ∧ ledCount 0 = 0 ∧
      ledCount 50 = (LED_LENGTH : ℤ) / 2 ∧ ledCount 100 = (LED_LENGTH : ℤ) := by
  have h := claim_C3 50 (by norm_num) (by norm_num)
  exact ⟨by exact_mod_cast h.1, h.2⟩

/-! ## Claim C6: flicker hue wrapping lands in the canonical domain -/

/-- Claim C6: for every base hue in the valid HomeKit range `0..360` and
every random hue offset in `[FLICKER_HUE_MIN, FLICKER_HUE_MAX] = [-8, 15]`,
the wrapped flicker hue `((h % 360) + 360) % 360` computed by `applyFlicker`
is non-negative and lies in the canonical domain `[0, 360)`. -/
theorem claim_C6 (baseHue off : ℤ) (h0 : 0 ≤ baseHue) (h360 : baseHue ≤ 360)
    (hlo : FLICKER_HUE_MIN ≤ off) (hhi : off ≤ FLICKER_HUE_MAX) :
    0 ≤ wrapHue360 (baseHue + off) ∧ wrapHue360 (baseHue + off) < 360 :=
  wrapHue360_mem (baseHue + off)

theorem claim_C6_witness :
    0 ≤ wrapHue360 (25 + -8) ∧ wrapHue360 (25 + -8) < 360 :=
  claim_C6 25 (-8) (by norm_num) (by norm_num)
    (by norm_num [FLICKER_HUE_MIN]) (by norm_num [FLICKER_HUE_MAX])

/-! ## Helper lemmas: flicker loop structure -/

theorem flickerLoop_untouched (bh bs : ℤ) (rndB rndH : ℕ → ℤ) (n : ℕ) (st : FlickerState)
    (s j : ℕ) (h : n ≤ j) :
    (flickerLoop bh bs rndB rndH n st).previousBrightness s j = st.previousBrightness s j ∧
      (flickerLoop bh bs rndB rndH n st).leds s j = st.leds s j := by
  induction n with
  | zero => exact ⟨rfl, rfl⟩
  | succ n ih =>
      have hj : ¬ j = n := by omega
      have ih' := ih (by omega)
      simp only [flickerLoop, flickerStepAt, setEntry]
      simp [hj, ih'.1, ih'.2]

/-- Mirrored-strips invariant: both strips hold the same smoothing state and
the same emitted colors. -/
def Mirror (st : FlickerState) : Prop :=
  (∀ j, st.previousBrightness 0 j = st.previousBrightness 1 j) ∧
    (∀ j, st.leds 0 j = st.leds 1 j)

theorem setEntry_both_mirror {α : Type} (f : ℕ → ℕ → α) (i : ℕ) (v : α)
    (hm : ∀ j, f 0 j = f 1 j) (j : ℕ) :
    setEntry (setEntry f 0 i v) 1 i v 0 j = setEntry (setEntry f 0 i v) 1 i v 1 j := by
  by_cases hj : j = i <;> simp [setEntry, hj, hm j]

theorem flickerStepAt_mirror (bh bs : ℤ) (rndB rndH : ℕ → ℤ) (i : ℕ) (st : FlickerState)
    (hm : Mirror st) : Mirror (flickerStepAt bh bs rndB rndH i st) := by
  constructor
  · exact setEntry_both_mirror _ _ _ hm.1
  · exact setEntry_both_mirror _ _ _ hm.2

theorem flickerLoop_mirror (bh bs : ℤ) (rndB rndH : ℕ → ℤ) (n : ℕ) (st : FlickerState)
    (hm : Mirror st) : Mirror (flickerLoop bh bs rndB rndH n st) := by
  induction n with
  | zero => exact hm
  | succ n ih => exact flickerStepAt_mirror _ _ _ _ _ _ ih

theorem applyFlicker_mirror (fullLEDs : ℕ) (fraction : ℚ) (bh bs : ℤ)
    (rndB rndH : ℕ → ℤ) (st : FlickerState) (hm : Mirror st) :
    Mirror (applyFlicker fullLEDs fraction bh bs rndB rndH st) := by
  have h1 : Mirror (flickerLoop bh bs rndB rndH fullLEDs st) :=
    flickerLoop_mirror _ _ _ _ _ _ hm
  unfold applyFlicker
  split_ifs with hc
  · exact ⟨setEntry_both_mirror _ _ _ h1.1, setEntry_both_mirror _ _ _ h1.2⟩
  · exact h1

/-- Range invariant on the smoothing array: every in-bounds entry lies in
`[FLICKER_BRIGHTNESS_MIN, FLICKER_BRIGHTNESS_MAX]`. -/
def PrevInRange (P : ℕ → ℕ → ℚ) : Prop :=
  ∀ s j, s < NUM_STRIPS → j < LED_LENGTH →
    (FLICKER_BRIGHTNESS_MIN : ℚ) ≤ P s j ∧ P s j ≤ (FLICKER_BRIGHTNESS_MAX : ℚ)

theorem fullLedStep_fst_mem (bh bs rB rH : ℤ) (p : ℚ)
    (hp1 : (FLICKER_BRIGHTNESS_MIN : ℚ) ≤ p) (hp2 : p ≤ (FLICKER_BRIGHTNESS_MAX : ℚ)) :
    (FLICKER_BRIGHTNESS_MIN : ℚ) ≤ (fullLedStep bh bs rB rH p).1 ∧
      (fullLedStep bh bs rB rH p).1 ≤ (FLICKER_BRIGHTNESS_MAX : ℚ) := by
  have hlh : (FLICKER_BRIGHTNESS_MIN : ℚ) ≤ (FLICKER_BRIGHTNESS_MAX : ℚ) := by
    norm_num [FLICKER_BRIGHTNESS_MIN, FLICKER_BRIGHTNESS_MAX]
  have ht := constrainQ_mem (100 + (rB : ℚ)) hlh
  exact calculateSmoothedBrightness_mem ht.1 ht.2 hp1 hp2

theorem setEntry_both_range (P : ℕ → ℕ → ℚ) (i : ℕ) (v : ℚ)
    (hP : PrevInRange P)
    (hv : i < LED_LENGTH →
      (FLICKER_BRIGHTNESS_MIN : ℚ) ≤ v ∧ v ≤ (FLICKER_BRIGHTNESS_MAX : ℚ)) :
    PrevInRange (setEntry (setEntry P 0 i v) 1 i v) := by
  intro s j hs hj
  by_cases hji : j = i
  · subst hji
    have hs01 : s = 0 ∨ s = 1 := by
      unfold NUM_STRIPS at hs; omega
    rcases hs01 with h | h <;> subst h <;> simpa [setEntry] using hv hj
  · simpa [setEntry, hji] using hP s j hs hj

theorem flickerStepAt_range (bh bs : ℤ) (rndB rndH : ℕ → ℤ) (i : ℕ) (st : FlickerState)
    (hP : PrevInRange st.previousBrightness) :
    PrevInRange (flickerStepAt bh bs rndB rndH i st).previousBrightness := by
  unfold flickerStepAt
  refine setEntry_both_range _ _ _ hP ?_
  intro hi
  exact fullLedStep_fst_mem bh bs (rndB i) (rndH i) (st.previousBrightness 0 i)
    (hP 0 i (by norm_num [NUM_STRIPS]) hi).1 (hP 0 i (by norm_num [NUM_STRIPS]) hi).2

theorem flickerLoop_range (bh bs : ℤ) (rndB rndH : ℕ → ℤ) (n : ℕ) (st : FlickerState)
    (hP : PrevInRange st.previousBrightness) :
    PrevInRange (flickerLoop bh bs rndB rndH n st).previousBrightness := by
  induction n with
  | zero => exact hP
  | succ n ih => exact flickerStepAt_range _ _ _ _ _ _ ih

/-- Identity between the fractional-LED pipeline and the fully-lit pipeline:
`fracLedStep` produces the same smoothed brightness, hue and saturation as
`fullLedStep` on the same inputs; only the value channel differs, being
computed from the smoothed value scaled by `fraction`, truncated, re-clamped
to the flicker range, and mapped to `0..255`. -/
theorem fracLedStep_eq_fullLedStep (bh bs rB rH : ℤ) (f p : ℚ) :
    fracLedStep bh bs rB rH f p =
      ((fullLedStep bh bs rB rH p).1,
        ⟨(fullLedStep bh bs rB rH p).2.h, (fullLedStep bh bs rB rH p).2.s,
          toUInt8 (mapArduino
            (constrainI (truncQ ((fullLedStep bh bs rB rH p).1 * f))
              FLICKER_BRIGHTNESS_MIN FLICKER_BRIGHTNESS_MAX)
            FLICKER_BRIGHTNESS_MIN FLICKER_BRIGHTNESS_MAX 0 255)⟩) := rfl

/-! ## Claim C4: off frames and the no-touch rule for the smoothing state -/

/-- Claim C4: if the power flag is false at a tick, or the computed LED count
is 0 with negligible fraction, the emitted frame is all black and the
smoothing array is untouched; and `applyFlicker` modifies
`previousBrightness[strip][j]` only for `j` inside the active range
(`j < fullLEDs`, or `j = fullLEDs` when `fraction > 0.01` and
`fullLEDs < LED_LENGTH`). -/
theorem claim_C4 (p hv sv : ℤ) (rndB rndH : ℕ → ℤ) (st : FlickerState) :
    ((loopTick false p hv sv rndB rndH st).leds = allBlack ∧
      (loopTick false p hv sv rndB rndH st).previousBrightness = st.previousBrightness) ∧
    (ledCount p = 0 ∧ fractionOf p < 1 / 100 →
      (loopTick true p hv sv rndB rndH st).leds = allBlack ∧
      (loopTick true p hv sv rndB rndH st).previousBrightness = st.previousBrightness) ∧
    (∀ fullLEDs fraction bh bs s j, ¬ j < fullLEDs →
      ¬ (j = fullLEDs ∧ 1 / 100 < fraction ∧ fullLEDs < LED_LENGTH) →
      (applyFlicker fullLEDs fraction bh bs rndB rndH st).previousBrightness s j
        = st.previousBrightness s j) := by
  refine ⟨⟨rfl, rfl⟩, ?_, ?_⟩
  · intro h
    have h2 : fractionOf p < (100 : ℚ)⁻¹ := by
      rw [← one_div]; exact h.2
    simp [loopTick, h.1, h2]
  · intro fullLEDs fraction bh bs s j hj hfrac
    have hloop := flickerLoop_untouched bh bs rndB rndH fullLEDs st s j (by omega)
    unfold applyFlicker
    split_ifs with hc
    · have hjne : ¬ j = fullLEDs := by
        intro hEq
        exact hfrac ⟨hEq, hc⟩
      simpa [setEntry, hjne] using hloop.1
    · exact hloop.1

theorem claim_C4_witness :
    ((loopTick false 100 25 100 (fun _ => 0) (fun _ => 0)
        ⟨initPreviousBrightness, allBlack⟩).leds = allBlack ∧
      (loopTick false 100 25 100 (fun _ => 0) (fun _ => 0)
        ⟨initPreviousBrightness, allBlack⟩).previousBrightness = initPreviousBrightness) ∧
    (applyFlicker 2 (24 / 100) 25 100 (fun _ => 0) (fun _ => 0)
        ⟨initPreviousBrightness, allBlack⟩).previousBrightness 0 5 = initPreviousBrightness 0 5 := by
  have h := claim_C4 100 25 100 (fun _ => 0) (fun _ => 0) ⟨initPreviousBrightness, allBlack⟩
  exact ⟨h.1, h.2.2 2 (24 / 100) 25 100 0 5 (by omega) (by simp)⟩

/-! ## Claim C5: the fractional LED runs the same pipeline, rescaled -/

/-- Claim C5: whenever `fraction > 0.01` and `fullLEDs < LED_LENGTH`,
`applyFlicker` emits LED index `fullLEDs` on both strips with the same hue
and saturation as the fully-lit pipeline `fullLedStep` computed on the same
random draws and stored state, and with value channel equal to the smoothed
value multiplied by `fraction`, truncated, clamped again to
`[FLICKER_BRIGHTNESS_MIN, FLICKER_BRIGHTNESS_MAX]`, then scaled to `0..255`;
the smoothing entry at index `fullLEDs` is advanced to the smoothed value.
Otherwise no fractional LED is emitted and `applyFlicker` is exactly the
fully-lit loop. -/
theorem claim_C5 (bh bs : ℤ) (rndB rndH : ℕ → ℤ) (st : FlickerState)
    (fullLEDs : ℕ) (fraction : ℚ) (F : ℚ × CHSV)
    (hF : F = fullLedStep bh bs (rndB fullLEDs) (rndH fullLEDs)
      ((flickerLoop bh bs rndB rndH fullLEDs st).previousBrightness 0 fullLEDs)) :
    (1 / 100 < fraction → fullLEDs < LED_LENGTH → ∀ s, s < NUM_STRIPS →
      (applyFlicker fullLEDs fraction bh bs rndB rndH st).leds s fullLEDs =
        Color.chsv ⟨F.2.h, F.2.s,
          toUInt8 (mapArduino
            (constrainI (truncQ (F.1 * fraction))
              FLICKER_BRIGHTNESS_MIN FLICKER_BRIGHTNESS_MAX)
            FLICKER_BRIGHTNESS_MIN FLICKER_BRIGHTNESS_MAX 0 255)⟩ ∧
      (applyFlicker fullLEDs fraction bh bs rndB rndH st).previousBrightness s fullLEDs
        = F.1) ∧
    (¬ (1 / 100 < fraction ∧ fullLEDs < LED_LENGTH) →
      applyFlicker fullLEDs fraction bh bs rndB rndH st
        = flickerLoop bh bs rndB rndH fullLEDs st ∧
      ∀ s, (applyFlicker fullLEDs fraction bh bs rndB rndH st).leds s fullLEDs
        = st.leds s fullLEDs) := by
  subst hF
  constructor
  · intro hfr hlt s hs
    have hs01 : s = 0 ∨ s = 1 := by
      unfold NUM_STRIPS at hs; omega
    unfold applyFlicker
    rw [if_pos ⟨hfr, hlt⟩]
    rcases hs01 with h | h <;> subst h <;>
      simp [setEntry, fracLedStep_eq_fullLedStep]
  · intro hc
    unfold applyFlicker
    rw [if_neg hc]
    exact ⟨rfl, fun s =>
      (flickerLoop_untouched bh bs rndB rndH fullLEDs st s fullLEDs (le_refl _)).2⟩

theorem claim_C5_witness :
    (applyFlicker 2 (24 / 100) 25 100 (fun _ => 0) (fun _ => 0)
        ⟨initPreviousBrightness, allBlack⟩).previousBrightness 0 2
      = (fullLedStep 25 100 0 0
          ((flickerLoop 25 100 (fun _ => 0) (fun _ => 0) 2
            ⟨initPreviousBrightness, allBlack⟩).previousBrightness 0 2)).1 := by
  have h := claim_C5 25 100 (fun _ => 0) (fun _ => 0)
    ⟨initPreviousBrightness, allBlack⟩ 2 (24 / 100) _ rfl
  exact ((h.1 (by norm_num) (by norm_num [LED_LENGTH]) 0 (by norm_num [NUM_STRIPS]))).2

/-! ## Claim C8: both strips are written identically -/

/-- Claim C8: at every animation tick, the color written to strip 0 at each
in-range index equals the color written to strip 1 at the same index
(all-off frames included), and the smoothing state stays mirrored:
`previousBrightness[0][j] = previousBrightness[1][j]` after the tick,
provided it was mirrored before. -/
theorem claim_C8 (power : Bool) (p hv sv : ℤ) (rndB rndH : ℕ → ℤ) (st : FlickerState)
    (hm : ∀ j, st.previousBrightness 0 j = st.previousBrightness 1 j)
    (j : ℕ) (hj : j < LED_LENGTH) :
    (loopTick power p hv sv rndB rndH st).leds 0 j
        = (loopTick power p hv sv rndB rndH st).leds 1 j ∧
      (loopTick power p hv sv rndB rndH st).previousBrightness 0 j
        = (loopTick power p hv sv rndB rndH st).previousBrightness 1 j := by
  unfold loopTick
  cases power with
  | false => exact ⟨rfl, hm j⟩
  | true =>
      simp only [Bool.true_eq_false, if_false]
      split_ifs with hc
      · exact ⟨rfl, hm j⟩
      · have hmm : Mirror { st with leds := allBlack } := ⟨hm, fun _ => rfl⟩
        have h := applyFlicker_mirror (ledCount p).toNat (fractionOf p) hv sv rndB rndH
          { st with leds := allBlack } hmm
        exact ⟨h.2 j, h.1 j⟩

theorem claim_C8_witness :
    (loopTick true 37 25 100 (fun _ => 0) (fun _ => 0)
        ⟨initPreviousBrightness, allBlack⟩).leds 0 2
      = (loopTick true 37 25 100 (fun _ => 0) (fun _ => 0)
          ⟨initPreviousBrightness, allBlack⟩).leds 1 2 ∧
    (loopTick true 37 25 100 (fun _ => 0) (fun _ => 0)
        ⟨initPreviousBrightness, allBlack⟩).previousBrightness 0 2
      = (loopTick true 37 25 100 (fun _ => 0) (fun _ => 0)
          ⟨initPreviousBrightness, allBlack⟩).previousBrightness 1 2 :=
  claim_C8 true 37 25 100 (fun _ => 0) (fun _ => 0)
    ⟨initPreviousBrightness, allBlack⟩ (fun _ => rfl) 2 (by norm_num [LED_LENGTH])

/-! ## Claim C9: smoothing-state range invariant -/

/-- Claim C9: every entry of the smoothing array is initialised to
`(FLICKER_BRIGHTNESS_MIN + FLICKER_BRIGHTNESS_MAX) / 2 = 75`, and every call
to `applyFlicker` keeps every in-bounds entry inside
`[FLICKER_BRIGHTNESS_MIN, FLICKER_BRIGHTNESS_MAX] = [30, 120]`: each update
is the EMA (alpha = 0.75) of the previous value and a target clamped into
that range before smoothing. -/
theorem claim_C9 :
    (∀ s j, initPreviousBrightness s j = 75) ∧
    ∀ fullLEDs fraction bh bs (rndB rndH : ℕ → ℤ) (st : FlickerState),
      PrevInRange st.previousBrightness →
      PrevInRange (applyFlicker fullLEDs fraction bh bs rndB rndH st).previousBrightness := by
  constructor
  · intro s j
    norm_num [initPreviousBrightness, FLICKER_BRIGHTNESS_MIN, FLICKER_BRIGHTNESS_MAX]
  · intro fullLEDs fraction bh bs rndB rndH st hP
    have h1 : PrevInRange (flickerLoop bh bs rndB rndH fullLEDs st).previousBrightness :=
      flickerLoop_range _ _ _ _ _ _ hP
    unfold applyFlicker
    split_ifs with hc
    · refine setEntry_both_range _ _ _ h1 ?_
      intro hi
      rw [fracLedStep_eq_fullLedStep]
      exact fullLedStep_fst_mem bh bs (rndB fullLEDs) (rndH fullLEDs) _
        (h1 0 fullLEDs (by norm_num [NUM_STRIPS]) hi).1
        (h1 0 fullLEDs (by norm_num [NUM_STRIPS]) hi).2
    · exact h1

theorem claim_C9_witness :
    PrevInRange (applyFlicker 2 (24 / 100) 25 100 (fun _ => 0) (fun _ => 0)
      ⟨initPreviousBrightness, allBlack⟩).previousBrightness := by
  refine claim_C9.2 2 (24 / 100) 25 100 (fun _ => 0) (fun _ => 0)
    ⟨initPreviousBrightness, allBlack⟩ ?_
  intro s j hs hj
  norm_num [initPreviousBrightness, FLICKER_BRIGHTNESS_MIN, FLICKER_BRIGHTNESS_MAX]

/-! ## Claim C10: a low-fraction fractional LED is emitted fully dark -/

theorem truncQ_le_of_le {q : ℚ} {n : ℤ} (hn : 0 ≤ n) (h : q ≤ (n : ℚ)) :
    truncQ q ≤ n := by
  unfold truncQ
  split_ifs with h0
  · calc ⌊q⌋ ≤ ⌊(n : ℚ)⌋ := Int.floor_le_floor h
      _ = n := Int.floor_intCast n
  · have hq0 : q ≤ 0 := le_of_lt (lt_of_not_le h0)
    have : ⌈q⌉ ≤ 0 := Int.ceil_le.2 (by exact_mod_cast hq0)
    omega

/-- Claim C10: whenever the fractional branch of `applyFlicker` runs
(`fraction > 0.01`, `fullLEDs < LED_LENGTH`) and the smoothed value times
`fraction` is at most `FLICKER_BRIGHTNESS_MIN = 30`, the emitted value
channel of LED `fullLEDs` is exactly 0, while the LED still counts as active
and its smoothing entry still advances; in particular this holds for every
`fraction ≤ 0.25` once the smoothed value is inside the invariant range
`[30, 120]`. -/
theorem claim_C10 (bh bs : ℤ) (rndB rndH : ℕ → ℤ) (st : FlickerState)
    (fullLEDs : ℕ) (fraction : ℚ) (s : ℕ) (sm : ℚ)
    (hsm : sm = (fracLedStep bh bs (rndB fullLEDs) (rndH fullLEDs) fraction
      ((flickerLoop bh bs rndB rndH fullLEDs st).previousBrightness 0 fullLEDs)).1)
    (hfr : 1 / 100 < fraction) (hlt : fullLEDs < LED_LENGTH) (hs : s < NUM_STRIPS) :
    (sm * fraction ≤ (FLICKER_BRIGHTNESS_MIN : ℚ) →
      valueChannel ((applyFlicker fullLEDs fraction bh bs rndB rndH st).leds s fullLEDs) = 0 ∧
      (applyFlicker fullLEDs fraction bh bs rndB rndH st).previousBrightness s fullLEDs = sm) ∧
    (fraction ≤ 1 / 4 → (FLICKER_BRIGHTNESS_MIN : ℚ) ≤ sm →
      sm ≤ (FLICKER_BRIGHTNESS_MAX : ℚ) →
      valueChannel ((applyFlicker fullLEDs fraction bh bs rndB rndH st).leds s fullLEDs) = 0) := by
  have hs01 : s = 0 ∨ s = 1 := by
    unfold NUM_STRIPS at hs; omega
  have hmain : sm * fraction ≤ (FLICKER_BRIGHTNESS_MIN : ℚ) →
      valueChannel ((applyFlicker fullLEDs fraction bh bs rndB rndH st).leds s fullLEDs) = 0 ∧
      (applyFlicker fullLEDs fraction bh bs rndB rndH st).previousBrightness s fullLEDs = sm := by
    intro hle
    have htr : truncQ (sm * fraction) ≤ FLICKER_BRIGHTNESS_MIN := by
      refine truncQ_le_of_le (by norm_num [FLICKER_BRIGHTNESS_MIN]) ?_
      exact_mod_cast hle
    have hcon : constrainI (truncQ (sm * fraction))
        FLICKER_BRIGHTNESS_MIN FLICKER_BRIGHTNESS_MAX = FLICKER_BRIGHTNESS_MIN := by
      norm_num [constrainI, FLICKER_BRIGHTNESS_MIN, FLICKER_BRIGHTNESS_MAX] at htr ⊢
      split_ifs <;> omega
    have hval : (fracLedStep bh bs (rndB fullLEDs) (rndH fullLEDs) fraction
        ((flickerLoop bh bs rndB rndH fullLEDs st).previousBrightness 0 fullLEDs)).2.v = 0 := by
      rw [hsm] at hcon
      rw [fracLedStep_eq_fullLedStep]
      show toUInt8 (mapArduino (constrainI (truncQ
        ((fullLedStep bh bs (rndB fullLEDs) (rndH fullLEDs)
          ((flickerLoop bh bs rndB rndH fullLEDs st).previousBrightness 0 fullLEDs)).1 * fraction))
        FLICKER_BRIGHTNESS_MIN FLICKER_BRIGHTNESS_MAX)
        FLICKER_BRIGHTNESS_MIN FLICKER_BRIGHTNESS_MAX 0 255) = 0
      rw [show (fullLedStep bh bs (rndB fullLEDs) (rndH fullLEDs)
          ((flickerLoop bh bs rndB rndH fullLEDs st).previousBrightness 0 fullLEDs)).1
        = (fracLedStep bh bs (rndB fullLEDs) (rndH fullLEDs) fraction
          ((flickerLoop bh bs rndB rndH fullLEDs st).previousBrightness 0 fullLEDs)).1 from rfl]
      rw [hcon]
      decide
    unfold applyFlicker
    rw [if_pos ⟨hfr, hlt⟩]
    rcases hs01 with h | h <;> subst h <;>
      exact ⟨by simp [setEntry, valueChannel, hval], by simp [setEntry, hsm]⟩
  refine ⟨hmain, ?_⟩
  intro hq hlo hhi
  refine (hmain ?_).1
  have hmin : ((FLICKER_BRIGHTNESS_MIN : ℤ) : ℚ) = 30 := by
    norm_num [FLICKER_BRIGHTNESS_MIN]
  have hmax : ((FLICKER_BRIGHTNESS_MAX : ℤ) : ℚ) = 120 := by
    norm_num [FLICKER_BRIGHTNESS_MAX]
  rw [hmin] at hlo ⊢
  rw [hmax] at hhi
  nlinarith [hlo, hhi, hfr, hq]

theorem claim_C10_witness :
    valueChannel ((applyFlicker 2 (24 / 100) 25 100 (fun _ => 0) (fun _ => 0)
      ⟨initPreviousBrightness, allBlack⟩).leds 0 2) = 0 := by
  have h := claim_C10 25 100 (fun _ => 0) (fun _ => 0)
    ⟨initPreviousBrightness, allBlack⟩ 2 (24 / 100) 0 _ rfl
    (by norm_num) (by norm_num [LED_LENGTH]) (by norm_num [NUM_STRIPS])
  refine h.2 (by norm_num) ?_ ?_ <;>
    norm_num [fracLedStep, fullLedStep, flickerLoop, flickerStepAt, setEntry,
      calculateSmoothedBrightness, constrainQ, initPreviousBrightness,
      FLICKER_SMOOTHING, FLICKER_BRIGHTNESS_MIN, FLICKER_BRIGHTNESS_MAX]

/-! ## Claim C7: EMA steady state -/

/-- Claim C7: `calculateSmoothedBrightness x x = x` for every value `x` — one
EMA update with `alpha = FLICKER_SMOOTHING = 0.75` applied at steady state
returns exactly the previous value. -/
theorem claim_C7 (x : ℚ) : calculateSmoothedBrightness x x = x := by
  unfold calculateSmoothedBrightness FLICKER_SMOOTHING
  ring

/-! ## Helper lemmas: single button steps -/

theorem step_idle_low {c : BtnCtx} (h : c.buttonState = ButtonState.idle)
    (hlr : c.buttonLastReading = true) (t : ℕ) :
    handlePowerButton false t c =
      ({ c with
          buttonState := ButtonState.debouncingPress
          buttonStateTimer := t
          buttonLastReading := false }, none) := by
  simp [handlePowerButton, h, hlr]

theorem step_idle_high {c : BtnCtx} (h : c.buttonState = ButtonState.idle) (t : ℕ) :
    handlePowerButton true t c = ({ c with buttonLastReading := true }, none) := by
  simp [handlePowerButton, h]

theorem step_dp_high {c : BtnCtx} (h : c.buttonState = ButtonState.debouncingPress) (t : ℕ) :
    handlePowerButton true t c =
      ({ c with buttonState := ButtonState.idle, buttonLastReading := true }, none) := by
  simp [handlePowerButton, h]

theorem step_dp_low_early {c : BtnCtx} (h : c.buttonState = ButtonState.debouncingPress)
    (t : ℕ) (ht : t - c.buttonStateTimer < DEBOUNCE_DELAY) :
    handlePowerButton false t c = ({ c with buttonLastReading := false }, none) := by
  simp [handlePowerButton, h, Nat.not_le.mpr ht]

theorem step_dp_low_confirm {c : BtnCtx} (h : c.buttonState = ButtonState.debouncingPress)
    (t : ℕ) (ht : DEBOUNCE_DELAY ≤ t - c.buttonStateTimer) :
    handlePowerButton false t c =
      ({ c with
          buttonState := ButtonState.pressed
          buttonPressStartTime := t
          buttonLastReading := false }, none) := by
  simp [handlePowerButton, h, ht]

theorem step_pressed_low_early {c : BtnCtx} (h : c.buttonState = ButtonState.pressed)
    (t : ℕ) (ht : t - c.buttonPressStartTime < LONG_PRESS_DURATION) :
    handlePowerButton false t c = ({ c with buttonLastReading := false }, none) := by
  simp [handlePowerButton, h, Nat.not_le.mpr ht]

theorem step_pressed_low_fire {c : BtnCtx} (h : c.buttonState = ButtonState.pressed)
    (t : ℕ) (ht : LONG_PRESS_DURATION ≤ t - c.buttonPressStartTime) :
    handlePowerButton false t c =
      ({ c with buttonState := ButtonState.longPressActive, buttonLastReading := false },
        some ButtonEvent.longPressActivated) := by
  simp [handlePowerButton, h, ht]

theorem step_pressed_high {c : BtnCtx} (h : c.buttonState = ButtonState.pressed) (t : ℕ) :
    handlePowerButton true t c =
      ({ c with
          buttonState := ButtonState.debouncingShortRelease
          buttonStateTimer := t
          buttonLastReading := true }, none) := by
  simp [handlePowerButton, h]

theorem step_lpa_low {c : BtnCtx} (h : c.buttonState = ButtonState.longPressActive) (t : ℕ) :
    handlePowerButton false t c = ({ c with buttonLastReading := false }, none) := by
  simp [handlePowerButton, h]

theorem step_lpa_high {c : BtnCtx} (h : c.buttonState = ButtonState.longPressActive) (t : ℕ) :
    handlePowerButton true t c =
      ({ c with
          buttonState := ButtonState.debouncingLongRelease
          buttonStateTimer := t
          buttonLastReading := true }, none) := by
  simp [handlePowerButton, h]

theorem step_dsr_low {c : BtnCtx} (h : c.buttonState = ButtonState.debouncingShortRelease)
    (t : ℕ) :
    handlePowerButton false t c =
      ({ c with buttonState := ButtonState.pressed, buttonLastReading := false }, none) := by
  simp [handlePowerButton, h]

theorem step_dsr_high_early {c : BtnCtx} (h : c.buttonState = ButtonState.debouncingShortRelease)
    (t : ℕ) (ht : t - c.buttonStateTimer < DEBOUNCE_DELAY) :
    handlePowerButton true t c = ({ c with buttonLastReading := true }, none) := by
  simp [handlePowerButton, h, Nat.not_le.mpr ht]

theorem step_dsr_high_confirm {c : BtnCtx} (h : c.buttonState = ButtonState.debouncingShortRelease)
    (t : ℕ) (ht : DEBOUNCE_DELAY ≤ t - c.buttonStateTimer) :
    handlePowerButton true t c =
      ({ c with buttonState := ButtonState.idle, buttonLastReading := true },
        some ButtonEvent.shortPress) := by
  simp [handlePowerButton, h, ht]

theorem step_dlr_low {c : BtnCtx} (h : c.buttonState = ButtonState.debouncingLongRelease)
    (t : ℕ) :
    handlePowerButton false t c =
      ({ c with buttonState := ButtonState.longPressActive, buttonLastReading := false },
        none) := by
  simp [handlePowerButton, h]

theorem step_dlr_high_early {c : BtnCtx} (h : c.buttonState = ButtonState.debouncingLongRelease)
    (t : ℕ) (ht : t - c.buttonStateTimer < DEBOUNCE_DELAY) :
    handlePowerButton true t c = ({ c with buttonLastReading := true }, none) := by
  simp [handlePowerButton, h, Nat.not_le.mpr ht]

theorem step_dlr_high_confirm {c : BtnCtx} (h : c.buttonState = ButtonState.debouncingLongRelease)
    (t : ℕ) (ht : DEBOUNCE_DELAY ≤ t - c.buttonStateTimer) :
    handlePowerButton true t c =
      ({ c with buttonState := ButtonState.idle, buttonLastReading := true }, none) := by
  simp [handlePowerButton, h, ht]

/-! ## Helper lemmas: button runs over sample segments -/

theorem runButton_append (c : BtnCtx) (xs ys : List (Bool × ℕ)) :
    runButton c (xs ++ ys)
      = ((runButton (runButton c xs).1 ys).1,
          (runButton c xs).2 ++ (runButton (runButton c xs).1 ys).2) := by
  induction xs generalizing c with
  | nil => simp [runButton]
  | cons s xs ih => simp [runButton, ih]

theorem pressedEntries_append (c : BtnCtx) (xs ys : List (Bool × ℕ)) :
    pressedEntries c (xs ++ ys)
      = pressedEntries c xs + pressedEntries (runButton c xs).1 ys := by
  induction xs generalizing c with
  | nil => simp [runButton, pressedEntries]
  | cons s xs ih => simp [runButton, pressedEntries, ih]; omega

theorem run_dp_low_early (ts : List ℕ) :
    ∀ c : BtnCtx, c.buttonState = ButtonState.debouncingPress →
    (∀ t ∈ ts, t < c.buttonStateTimer + DEBOUNCE_DELAY) →
    (runButton c (lowSamples ts)).2 = [] ∧
    (runButton c (lowSamples ts)).1.buttonState = ButtonState.debouncingPress ∧
    (runButton c (lowSamples ts)).1.buttonStateTimer = c.buttonStateTimer ∧
    pressedEntries c (lowSamples ts) = 0 := by
  induction ts with
  | nil => intro c h _; simp [runButton, lowSamples, pressedEntries, h]
  | cons t ts ih =>
      intro c h hall
      have ht : t - c.buttonStateTimer < DEBOUNCE_DELAY := by
        have := hall t (List.mem_cons_self t ts)
        simp only [DEBOUNCE_DELAY] at this ⊢
        omega
      have hstep := step_dp_low_early h t ht
      have hall' : ∀ u ∈ ts, u < c.buttonStateTimer + DEBOUNCE_DELAY := by
        intro u hu; exact hall u (List.mem_cons_of_mem t hu)
      have ihc := ih { c with buttonLastReading := false } h hall'
      simp [runButton, lowSamples, pressedEntries, hstep, h] at ihc ⊢
      exact ihc

theorem run_lpa_low (ts : List ℕ) :
    ∀ c : BtnCtx, c.buttonState = ButtonState.longPressActive →
    (runButton c (lowSamples ts)).2 = [] ∧
    (runButton c (lowSamples ts)).1.buttonState = ButtonState.longPressActive ∧
    pressedEntries c (lowSamples ts) = 0 := by
  induction ts with
  | nil => intro c h; simp [runButton, lowSamples, pressedEntries, h]
  | cons t ts ih =>
      intro c h
      have hstep := step_lpa_low h t
      have ihc := ih { c with buttonLastReading := false } h
      simp [runButton, lowSamples, pressedEntries, hstep, h] at ihc ⊢
      exact ihc

theorem run_pressed_low_fire (ts : List ℕ) :
    ∀ c : BtnCtx, c.buttonState = ButtonState.pressed →
    (∃ t ∈ ts, c.buttonPressStartTime + LONG_PRESS_DURATION ≤ t) →
    (runButton c (lowSamples ts)).2 = [ButtonEvent.longPressActivated] ∧
    (runButton c (lowSamples ts)).1.buttonState = ButtonState.longPressActive ∧
    pressedEntries c (lowSamples ts) = 0 := by
  induction ts with
  | nil => intro c h hex; simp at hex
  | cons t ts ih =>
      intro c h hex
      by_cases hc : LONG_PRESS_DURATION ≤ t - c.buttonPressStartTime
      · have hstep := step_pressed_low_fire h t hc
        have hlpa := run_lpa_low ts
          { c with buttonState := ButtonState.longPressActive, buttonLastReading := false } rfl
        simp [runButton, lowSamples, pressedEntries, hstep, h] at hlpa ⊢
        exact hlpa
      · have hstep := step_pressed_low_early h t (by omega)
        have hex' : ∃ u ∈ ts, c.buttonPressStartTime + LONG_PRESS_DURATION ≤ u := by
          rcases hex with ⟨u, hu, hge⟩
          rcases List.mem_cons.1 hu with rfl | hu'
          · omega
          · exact ⟨u, hu', hge⟩
        have ihc := ih { c with buttonLastReading := false } h hex'
        simp [runButton, lowSamples, pressedEntries, hstep, h] at ihc ⊢
        exact ihc

theorem run_idle_high (ts : List ℕ) :
    ∀ c : BtnCtx, c.buttonState = ButtonState.idle →
    (runButton c (highSamples ts)).2 = [] ∧
    (runButton c (highSamples ts)).1.buttonState = ButtonState.idle ∧
    pressedEntries c (highSamples ts) = 0 := by
  induction ts with
  | nil => intro c h; simp [runButton, highSamples, pressedEntries, h]
  | cons t ts ih =>
      intro c h
      have hstep := step_idle_high h t
      have ihc := ih { c with buttonLastReading := true } h
      simp [runButton, highSamples, pressedEntries, hstep, h] at ihc ⊢
      exact ihc

theorem run_dlr_high_confirm (ts : List ℕ) :
    ∀ c : BtnCtx, c.buttonState = ButtonState.debouncingLongRelease →
    (∃ t ∈ ts, c.buttonStateTimer + DEBOUNCE_DELAY ≤ t) →
    (runButton c (highSamples ts)).2 = [] ∧
    (runButton c (highSamples ts)).1.buttonState = ButtonState.idle ∧
    pressedEntries c (highSamples ts) = 0 := by
  induction ts with
  | nil => intro c h hex; simp at hex
  | cons t ts ih =>
      intro c h hex
      by_cases hc : DEBOUNCE_DELAY ≤ t - c.buttonStateTimer
      · have hstep := step_dlr_high_confirm h t hc
        have hidle := run_idle_high ts
          { c with buttonState := ButtonState.idle, buttonLastReading := true } rfl
        simp [runButton, highSamples, pressedEntries, hstep, h] at hidle ⊢
        exact hidle
      · have hstep := step_dlr_high_early h t (by omega)
        have hex' : ∃ u ∈ ts, c.buttonStateTimer + DEBOUNCE_DELAY ≤ u := by
          rcases hex with ⟨u, hu, hge⟩
          rcases List.mem_cons.1 hu with rfl | hu'
          · omega
          · exact ⟨u, hu', hge⟩
        have ihc := ih { c with buttonLastReading := true } h hex'
        simp [runButton, highSamples, pressedEntries, hstep, h] at ihc ⊢
        exact ihc

theorem run_dp_confirm (debTimes : List ℕ) (tc : ℕ) (c : BtnCtx)
    (h : c.buttonState = ButtonState.debouncingPress)
    (hdeb : ∀ t ∈ debTimes, t < c.buttonStateTimer + DEBOUNCE_DELAY)
    (hconf : c.buttonStateTimer + DEBOUNCE_DELAY ≤ tc) :
    (runButton c (lowSamples (debTimes ++ [tc]))).2 = [] ∧
    (runButton c (lowSamples (debTimes ++ [tc]))).1.buttonState = ButtonState.pressed ∧
    (runButton c (lowSamples (debTimes ++ [tc]))).1.buttonPressStartTime = tc ∧
    pressedEntries c (lowSamples (debTimes ++ [tc])) = 1 := by
  have hrun := run_dp_low_early debTimes c h hdeb
  have hlist : lowSamples (debTimes ++ [tc]) = lowSamples debTimes ++ [(false, tc)] := by
    simp [lowSamples]
  have hstep := step_dp_low_confirm (c := (runButton c (lowSamples debTimes)).1)
    hrun.2.1 tc (by rw [hrun.2.2.1]; omega)
  rw [hlist, runButton_append, pressedEntries_append]
  simp [runButton, pressedEntries, hstep, hrun.1, hrun.2.1, hrun.2.2.2]

theorem run_hold_release (holdTimes relTimes : List ℕ) (tr : ℕ) (c : BtnCtx)
    (h : c.buttonState = ButtonState.pressed)
    (hhold : ∃ t ∈ holdTimes, c.buttonPressStartTime + LONG_PRESS_DURATION ≤ t)
    (hrel : ∃ t ∈ relTimes, tr + DEBOUNCE_DELAY ≤ t) :
    (runButton c (lowSamples holdTimes ++ ((true, tr) :: highSamples relTimes))).2
      = [ButtonEvent.longPressActivated] ∧
    (runButton c (lowSamples holdTimes ++ ((true, tr) :: highSamples relTimes))).1.buttonState
      = ButtonState.idle := by
  obtain ⟨e1, s1, -⟩ := run_pressed_low_fire holdTimes c h hhold
  have h2 := step_lpa_high s1 tr
  have hC := run_dlr_high_confirm relTimes
    { buttonState := ButtonState.debouncingLongRelease, buttonStateTimer := tr,
        buttonPressStartTime := (runButton c (lowSamples holdTimes)).1.buttonPressStartTime,
        buttonLastReading := true } rfl (by simpa using hrel)
  rw [runButton_append]
  refine ⟨?_, ?_⟩
  · simp only [runButton]
    simp [e1, h2, hC.1]
  · simp only [runButton]
    simp [h2, hC.2.1]

/-! ## Claim C1: a long press fires once, and its release does not toggle -/

/-- Claim C1: starting from the initial context, a raw sequence consisting of
a LOW edge at `t1`, LOW samples inside the debounce window, a LOW sample at
`tc ≥ t1 + DEBOUNCE_DELAY` (press confirmed), any further LOW samples of
which one reaches `tc + LONG_PRESS_DURATION`, and then a HIGH release
debounced at `tr` and confirmed, emits exactly one event —
`LongPressActivated` — and in particular no `ShortPress` on the confirmed
release; the machine ends back in `BTN_IDLE`. -/
theorem claim_C1 (t1 tc tr : ℕ) (debTimes holdTimes relTimes : List ℕ)
    (hdeb : ∀ t ∈ debTimes, t < t1 + DEBOUNCE_DELAY)
    (hconf : t1 + DEBOUNCE_DELAY ≤ tc)
    (hhold : ∃ t ∈ holdTimes, tc + LONG_PRESS_DURATION ≤ t)
    (hrel : ∃ t ∈ relTimes, tr + DEBOUNCE_DELAY ≤ t) :
    (runButton initBtnCtx (lowSamples (t1 :: (debTimes ++ [tc]) ++ holdTimes)
        ++ highSamples (tr :: relTimes))).2 = [ButtonEvent.longPressActivated] ∧
    (runButton initBtnCtx (lowSamples (t1 :: (debTimes ++ [tc]) ++ holdTimes)
        ++ highSamples (tr :: relTimes))).1.buttonState = ButtonState.idle := by
  have hlist : lowSamples (t1 :: (debTimes ++ [tc]) ++ holdTimes) ++ highSamples (tr :: relTimes)
      = (false, t1) :: (lowSamples (debTimes ++ [tc])
          ++ (lowSamples holdTimes ++ ((true, tr) :: highSamples relTimes))) := by
    simp [lowSamples, highSamples]
  rw [hlist]
  have h1 : handlePowerButton false t1 initBtnCtx
      = ({ buttonState := ButtonState.debouncingPress, buttonStateTimer := t1,
            buttonPressStartTime := 0, buttonLastReading := false }, none) := by
    simp [handlePowerButton, initBtnCtx]
  have hA := run_dp_confirm debTimes tc
    { buttonState := ButtonState.debouncingPress, buttonStateTimer := t1,
        buttonPressStartTime := 0, buttonLastReading := false } rfl hdeb hconf
  have hHR := run_hold_release holdTimes relTimes tr
    (runButton
      { buttonState := ButtonState.debouncingPress, buttonStateTimer := t1,
          buttonPressStartTime := 0, buttonLastReading := false }
      (lowSamples (debTimes ++ [tc]))).1
    hA.2.1 (by rw [hA.2.2.1]; exact hhold) hrel
  refine ⟨?_, ?_⟩
  · simp only [runButton]
    rw [h1, runButton_append]
    simp [hA.1, hHR.1]
  · simp only [runButton]
    rw [h1, runButton_append]
    simp [hHR.2]

theorem claim_C1_witness :
    (runButton initBtnCtx (lowSamples (0 :: ([10, 20] ++ [50]) ++ [1000, 3050, 3100])
        ++ highSamples (4000 :: [4060]))).2 = [ButtonEvent.longPressActivated] ∧
    (runButton initBtnCtx (lowSamples (0 :: ([10, 20] ++ [50]) ++ [1000, 3050, 3100])
        ++ highSamples (4000 :: [4060]))).1.buttonState = ButtonState.idle :=
  claim_C1 0 50 4000 [10, 20] [1000, 3050, 3100] [4060]
    (by decide) (by decide) (by decide) (by decide)

/-! ## Claim C2: debounce — bounce rejection and single entry into Pressed -/

/-- Claim C2: a raw signal that goes LOW at `t1`, bounces HIGH at `t2`, goes
LOW again at `t3` (all inside one debounce window), and then stays LOW past
the window, makes the machine enter `BTN_PRESSED` exactly once with no event
emitted; moreover (machine-level) `BTN_PRESSED` is only ever entered from
`BTN_DEBOUNCING_PRESS` — with a LOW reading, at least `DEBOUNCE_DELAY` after
the debounce timer was started, emitting nothing — or as a bounce return
from `BTN_DEBOUNCING_SHORT_RELEASE`; a HIGH bounce in
`BTN_DEBOUNCING_PRESS` returns to `BTN_IDLE` without an event, a LOW sample
inside the window leaves the debounce state and timer unchanged, and a LOW
bounce in either release-debouncing state returns to the prior confirmed
state (`BTN_PRESSED`, resp. `BTN_LONG_PRESS_ACTIVE`) without an event. -/
theorem claim_C2 (t1 t2 t3 tc : ℕ) (preTimes : List ℕ)
    (h12 : t1 ≤ t2) (h23 : t2 ≤ t3) (hwin : t3 < t1 + DEBOUNCE_DELAY)
    (hpre : ∀ t ∈ preTimes, t < t3 + DEBOUNCE_DELAY)
    (hc : t3 + DEBOUNCE_DELAY ≤ tc) :
    ((runButton initBtnCtx ((false, t1) :: (true, t2) :: (false, t3)
        :: lowSamples (preTimes ++ [tc]))).2 = [] ∧
      (runButton initBtnCtx ((false, t1) :: (true, t2) :: (false, t3)
        :: lowSamples (preTimes ++ [tc]))).1.buttonState = ButtonState.pressed ∧
      pressedEntries initBtnCtx ((false, t1) :: (true, t2) :: (false, t3)
        :: lowSamples (preTimes ++ [tc])) = 1) ∧
    (∀ (c : BtnCtx) (r : Bool) (t : ℕ),
      (handlePowerButton r t c).1.buttonState = ButtonState.pressed →
      c.buttonState ≠ ButtonState.pressed →
      (c.buttonState = ButtonState.debouncingPress ∧ r = false ∧
        c.buttonStateTimer + DEBOUNCE_DELAY ≤ t ∧ (handlePowerButton r t c).2 = none) ∨
      (c.buttonState = ButtonState.debouncingShortRelease ∧ r = false ∧
        (handlePowerButton r t c).2 = none)) ∧
    (∀ (c : BtnCtx) (t : ℕ), c.buttonState = ButtonState.debouncingPress →
      handlePowerButton true t c
          = ({ c with buttonState := ButtonState.idle, buttonLastReading := true }, none) ∧
      (t - c.buttonStateTimer < DEBOUNCE_DELAY →
        handlePowerButton false t c = ({ c with buttonLastReading := false }, none))) ∧
    (∀ (c : BtnCtx) (t : ℕ), c.buttonState = ButtonState.debouncingShortRelease →
      handlePowerButton false t c
        = ({ c with buttonState := ButtonState.pressed, buttonLastReading := false }, none)) ∧
    (∀ (c : BtnCtx) (t : ℕ), c.buttonState = ButtonState.debouncingLongRelease →
      handlePowerButton false t c
        = ({ c with buttonState := ButtonState.longPressActive, buttonLastReading := false },
            none)) := by
  refine ⟨?_, ?_, ?_, ?_, ?_⟩
  · have h1 : handlePowerButton false t1 initBtnCtx
        = ({ buttonState := ButtonState.debouncingPress, buttonStateTimer := t1,
              buttonPressStartTime := 0, buttonLastReading := false }, none) := by
      simp [handlePowerButton, initBtnCtx]
    have h2 : handlePowerButton true t2
        { buttonState := ButtonState.debouncingPress, buttonStateTimer := t1,
            buttonPressStartTime := 0, buttonLastReading := false }
        = ({ buttonState := ButtonState.idle, buttonStateTimer := t1,
              buttonPressStartTime := 0, buttonLastReading := true }, none) := by
      simp [handlePowerButton]
    have h3 : handlePowerButton false t3
        { buttonState := ButtonState.idle, buttonStateTimer := t1,
            buttonPressStartTime := 0, buttonLastReading := true }
        = ({ buttonState := ButtonState.debouncingPress, buttonStateTimer := t3,
              buttonPressStartTime := 0, buttonLastReading := false }, none) := by
      simp [handlePowerButton]
    have hA := run_dp_confirm preTimes tc
      { buttonState := ButtonState.debouncingPress, buttonStateTimer := t3,
          buttonPressStartTime := 0, buttonLastReading := false } rfl hpre hc
    refine ⟨?_, ?_, ?_⟩
    · simp only [runButton]
      rw [h1, h2, h3]
      simp [hA.1]
    · simp only [runButton]
      rw [h1, h2, h3]
      simp [hA.2.1]
    · simp only [pressedEntries]
      rw [h1, h2, h3]
      simp [hA.2.2.2]
  · intro c r t hres hne
    cases r with
    | false =>
        cases hstate : c.buttonState with
        | idle =>
            by_cases hlr : c.buttonLastReading = true
            · rw [step_idle_low hstate hlr t] at hres
              simp at hres
            · have hstep : handlePowerButton false t c
                  = ({ c with buttonLastReading := false }, none) := by
                simp [handlePowerButton, hstate, hlr]
              rw [hstep] at hres
              simp [hstate] at hres
        | debouncingPress =>
            by_cases hd : DEBOUNCE_DELAY ≤ t - c.buttonStateTimer
            · exact Or.inl ⟨rfl, rfl,
                by simp only [DEBOUNCE_DELAY] at hd ⊢; omega,
                by rw [step_dp_low_confirm hstate t hd]⟩
            · rw [step_dp_low_early hstate t (by omega)] at hres
              simp [hstate] at hres
        | pressed => exact absurd hstate hne
        | longPressActive =>
            rw [step_lpa_low hstate t] at hres
            simp [hstate] at hres
        | debouncingShortRelease =>
            exact Or.inr ⟨rfl, rfl, by rw [step_dsr_low hstate t]⟩
        | debouncingLongRelease =>
            rw [step_dlr_low hstate t] at hres
            simp at hres
    | true =>
        cases hstate : c.buttonState with
        | idle =>
            rw [step_idle_high hstate t] at hres
            simp [hstate] at hres
        | debouncingPress =>
            rw [step_dp_high hstate t] at hres
            simp at hres
        | pressed => exact absurd hstate hne
        | longPressActive =>
            rw [step_lpa_high hstate t] at hres
            simp at hres
        | debouncingShortRelease =>
            by_cases hd : DEBOUNCE_DELAY ≤ t - c.buttonStateTimer
            · rw [step_dsr_high_confirm hstate t hd] at hres
              simp at hres
            · rw [step_dsr_high_early hstate t (by omega)] at hres
              simp [hstate] at hres
        | debouncingLongRelease =>
            by_cases hd : DEBOUNCE_DELAY ≤ t - c.buttonStateTimer
            · rw [step_dlr_high_confirm hstate t hd] at hres
              simp at hres
            · rw [step_dlr_high_early hstate t (by omega)] at hres
              simp [hstate] at hres
  · intro c t h
    exact ⟨step_dp_high h t, fun ht => step_dp_low_early h t ht⟩
  · intro c t h
    exact step_dsr_low h t
  · intro c t h
    exact step_dlr_low h t

theorem claim_C2_witness :
    (runButton initBtnCtx ((false, 0) :: (true, 10) :: (false, 20)
        :: lowSamples ([30] ++ [70]))).2 = [] ∧
    (runButton initBtnCtx ((false, 0) :: (true, 10) :: (false, 20)
        :: lowSamples ([30] ++ [70]))).1.buttonState = ButtonState.pressed ∧
    pressedEntries initBtnCtx ((false, 0) :: (true, 10) :: (false, 20)
        :: lowSamples ([30] ++ [70])) = 1 :=
  (claim_C2 0 10 20 70 [30] (by decide) (by decide) (by decide)
    (by decide) (by decide)).1

end AladdinLamp
